import Mathlib

/-!
Verification of the inspect/run logic of the kwctl policy tool.

The development shallowly embeds the two source modules:

* `inspect.rs` — signature-reference derivation (`get_signature_url`),
  best-effort signature-manifest resolution (`fetch_signatures_manifest`),
  output-format selection (`OutputType::try_from`), the human-readable
  metadata table rendering (`print_metadata_generic_info` and helpers),
  the YAML printers, and the markdown-rendering error policy
  (`render_markdown`).
* `run.rs` — the request-shape normalization performed inline in
  `pull_and_run` before the payload is handed to the evaluator.

External collaborators (registry client, YAML serializer, markdown
renderer, terminal) are modelled as explicit parameters describing their
observable behaviour; printed table rows become values of a `Row` type,
printed lines become lists of strings.
-/

namespace Kwctl

/-- JSON values as produced by serde_json; objects are association lists
of fields with the first binding of a key the visible one, numbers are
modelled as integers (no claim depends on numeric representation). -/
inductive Json where
  | null : Json
  | bool (b : Bool) : Json
  | num (n : Int) : Json
  | str (s : String) : Json
  | arr (xs : List Json) : Json
  | obj (fields : List (String × Json)) : Json

/-- Lookup of a key in an association list, first binding wins; models
serde_json map `get` and HashMap `get`. -/
def lookupKey {α : Type} (k : String) : List (String × α) → Option α
  | [] => none
  | (k2, v) :: rest => if k2 = k then some v else lookupKey k rest

/-- Rust serde_json `Value::as_str`: the string payload when the value is
a JSON string, none otherwise. -/
def Json.asStr : Json → Option String
  | Json.str s => some s
  | _ => none

/-- True exactly on JSON objects. -/
def Json.isObj : Json → Bool
  | Json.obj _ => true
  | _ => false

/-- The two errors the request normalization in `run.rs` can raise. -/
inductive NormalizeError where
  | invalidAdmissionReviewObject : NormalizeError
  | invalidRequest : NormalizeError
deriving DecidableEq

/-- The anyhow message carried by each normalization error in the source. -/
def NormalizeError.message : NormalizeError → String
  | NormalizeError.invalidAdmissionReviewObject => "invalid admission review object"
  | NormalizeError.invalidRequest => "request to evaluate is invalid"

/-- Embedding of the request-shape match in `pull_and_run` (run.rs,
lines 34-48): an object whose string field kind equals AdmissionReview
yields its request field (error if that field is missing); any other
object is returned unchanged; a non-object is an error. -/
def normalize (request : Json) : Except NormalizeError Json :=
  match request with
  | Json.obj fields =>
      if (lookupKey "kind" fields).bind Json.asStr = some "AdmissionReview" then
        match lookupKey "request" fields with
        | some r => Except.ok r
        | none => Except.error NormalizeError.invalidAdmissionReviewObject
      else
        Except.ok (Json.obj fields)
  | _ => Except.error NormalizeError.invalidRequest

/-- Rust `str::replace(':', "-")` at character level. -/
def replaceColons (s : List Char) : List Char :=
  s.map (fun c => if c = ':' then '-' else c)

/-- Rust `str::rfind(':')`: index of the last colon, if any. -/
def rfindColon : List Char → Option Nat
  | [] => none
  | c :: rest =>
      match rfindColon rest with
      | some i => some (i + 1)
      | none => if c = ':' then some 0 else none

/-- Embedding of `get_signature_url` (inspect.rs, lines 277-284) on
character lists: build the signature tag from the digest by replacing
every colon with a dash and appending .sig, then splice it in after the
last colon of the reference; none when the reference has no colon. -/
def get_signature_url_core (uri digest : List Char) : Option (List Char) :=
  let signatures_tag := replaceColons digest ++ (".sig".toList)
  match rfindColon uri with
  | none => none
  | some last_colon_index =>
      some (uri.take (last_colon_index + 1) ++ signatures_tag)

/-- String-level wrapper of `get_signature_url`. -/
def get_signature_url (uri digest : String) : Option String :=
  (get_signature_url_core uri.toList digest.toList).map List.asString

/-- A layer of an OCI image manifest, as consumed by the printers. -/
structure Layer where
  digest : String
  media_type : String
  size : Nat
  annotations : Option (List (String × String))
deriving DecidableEq

/-- OCI image manifest: the layers are all the printers look at. -/
structure OciImageManifest where
  layers : List Layer
deriving DecidableEq

/-- The oci_distribution manifest union: an image manifest or an
image index (its payload is irrelevant here). -/
inductive OciManifest where
  | Image (img : OciImageManifest) : OciManifest
  | ImageIndex : OciManifest

/-- Observable behaviour of the external registry client for one
invocation: the digest lookup for the inspected reference, and the
manifest fetch as a function of the reference it is asked for. -/
structure Registry where
  manifest_digest : String → Except String String
  manifest : String → Except String OciManifest

/-- Embedding of `fetch_signatures_manifest` (inspect.rs, lines 257-274):
look up the digest, derive the signature reference, fetch the manifest
there, and keep it only when it is an image manifest; every failure is
collapsed into none by the ok()? / ? -on-Option chain. -/
def fetch_signatures_manifest (registry : Registry) (uri : String) : Option OciImageManifest :=
  (registry.manifest_digest uri).toOption.bind fun digest =>
    (get_signature_url uri digest).bind fun signature_url =>
      (registry.manifest signature_url).toOption.bind fun manifest =>
        match manifest with
        | OciManifest.Image img => some img
        | _ => none

/-- Output format selector of the inspect command. -/
inductive OutputType where
  | Yaml : OutputType
  | Pretty : OutputType
deriving DecidableEq

/-- Embedding of `OutputType::try_from` (inspect.rs, lines 52-62):
the literal yaml selects Yaml, absence selects Pretty, any other
supplied value is an error. -/
def OutputType.try_from (value : Option String) : Except String OutputType :=
  match value with
  | some v =>
      if v = "yaml" then Except.ok OutputType.Yaml
      else Except.error ("Invalid output format " ++ v)
  | none => Except.ok OutputType.Pretty

/-- Execution modes of a policy, from the policy-evaluator collaborator;
KubewardenWapc is the mode whose policies speak the waPC protocol and
therefore carry a protocol version. -/
inductive PolicyExecutionMode where
  | KubewardenWapc : PolicyExecutionMode
  | Opa : PolicyExecutionMode
  | OpaGatekeeper : PolicyExecutionMode
deriving DecidableEq

/-- Display strings of the execution modes, as serialized by the
policy-evaluator collaborator; only used verbatim inside a table row. -/
def execModeStr : PolicyExecutionMode → String
  | PolicyExecutionMode.KubewardenWapc => "kubewarden-wapc"
  | PolicyExecutionMode.Opa => "opa"
  | PolicyExecutionMode.OpaGatekeeper => "gatekeeper"

/-- Policy metadata, the fields read by the printers; the annotation map
is an association list standing for the HashMap of the source (its list
order models the iteration order of the map), and the rules collection
is opaque serialized data passed through verbatim. -/
structure Metadata where
  protocol_version : Option String
  annotations : Option (List (String × String))
  mutating : Bool
  context_aware : Bool
  execution_mode : PolicyExecutionMode
  rules : List String

/-- Well-known annotation key constants of the policy-evaluator crate. -/
def KUBEWARDEN_ANNOTATION_POLICY_TITLE : String := "io.kubewarden.policy.title"

/-- Well-known annotation key: description. -/
def KUBEWARDEN_ANNOTATION_POLICY_DESCRIPTION : String := "io.kubewarden.policy.description"

/-- Well-known annotation key: author. -/
def KUBEWARDEN_ANNOTATION_POLICY_AUTHOR : String := "io.kubewarden.policy.author"

/-- Well-known annotation key: url. -/
def KUBEWARDEN_ANNOTATION_POLICY_URL : String := "io.kubewarden.policy.url"

/-- Well-known annotation key: source. -/
def KUBEWARDEN_ANNOTATION_POLICY_SOURCE : String := "io.kubewarden.policy.source"

/-- Well-known annotation key: license. -/
def KUBEWARDEN_ANNOTATION_POLICY_LICENSE : String := "io.kubewarden.policy.license"

/-- Reserved annotation key holding the usage text. -/
def KUBEWARDEN_ANNOTATION_POLICY_USAGE : String := "io.kubewarden.policy.usage"

/-- The fixed, ordered allow-list of well-known annotation keys emitted
in the Details section (inspect.rs, lines 100-107). -/
def pretty_annotations : List String :=
  [KUBEWARDEN_ANNOTATION_POLICY_TITLE,
   KUBEWARDEN_ANNOTATION_POLICY_DESCRIPTION,
   KUBEWARDEN_ANNOTATION_POLICY_AUTHOR,
   KUBEWARDEN_ANNOTATION_POLICY_URL,
   KUBEWARDEN_ANNOTATION_POLICY_SOURCE,
   KUBEWARDEN_ANNOTATION_POLICY_LICENSE]

/-- Whether the first character list is a prefix of the second. -/
def isPrefixList : List Char → List Char → Bool
  | [], _ => true
  | _ :: _, [] => false
  | a :: as, b :: bs => a = b && isPrefixList as bs

/-- Fueled helper for the repeated prefix stripping of Rust
`str::trim_start_matches`, on character lists. -/
def trimStartMatchesList : Nat → List Char → List Char → List Char
  | 0, _, s => s
  | n + 1, p, s =>
      if isPrefixList p s && p ≠ [] then
        trimStartMatchesList n p (s.drop p.length)
      else s

/-- Rust `str::trim_start_matches`: strip every leading occurrence of
the pattern. -/
def trimStartMatches (p s : String) : String :=
  List.asString (trimStartMatchesList (s.toList.length + 1) p.toList s.toList)

/-- Embedding of `MetadataPrettyPrinter::annotation_to_row_key`
(inspect.rs, lines 88-92): append a colon, then strip the namespace. -/
def annotation_to_row_key (text : String) : String :=
  trimStartMatches "io.kubewarden.policy." (text ++ ":")

/-- A rendered table row: a section header, a key/value row, or the
blank separator row. -/
inductive Row where
  | sectionHeader (title : String) : Row
  | pair (key : String) (value : String) : Row
  | blank : Row
deriving DecidableEq

/-- HashMap `remove`: drop the binding of the given key. -/
def removeKey {α : Type} (k : String) (m : List (String × α)) : List (String × α) :=
  m.filter (fun kv => kv.1 ≠ k)

/-- The Details-section annotation loop (inspect.rs, lines 114-119):
walk the allow-list in order; for each key present in the working map,
emit its row and remove the key from the working map. Returns the rows
emitted and the final working map. -/
def consumeKnown : List String → List (String × String) → List Row × List (String × String)
  | [], anns => ([], anns)
  | k :: ks, anns =>
      match lookupKey k anns with
      | some v =>
          let rec_result := consumeKnown ks (removeKey k anns)
          (Row.pair (annotation_to_row_key k) v :: rec_result.1, rec_result.2)
      | none => consumeKnown ks anns

/-- Rows emitted for well-known annotations in the Details section. -/
def knownAnnotationRows (anns : List (String × String)) : List Row :=
  (consumeKnown pretty_annotations anns).1

/-- The working annotation map after the Details loop consumed the
well-known keys and the reserved usage key was removed
(inspect.rs, line 127). -/
def remainingAnnotations (anns : List (String × String)) : List (String × String) :=
  removeKey KUBEWARDEN_ANNOTATION_POLICY_USAGE (consumeKnown pretty_annotations anns).2

/-- Rows of the Annotations section: every remaining key/value pair in
the working map's iteration order (inspect.rs, lines 131-133). -/
def annotationSectionRows (anns : List (String × String)) : List Row :=
  (remainingAnnotations anns).map (fun kv => Row.pair kv.1 kv.2)

/-- The fixed rows of the Details section (inspect.rs, lines 120-125):
mutating, context aware, execution mode, and the protocol version row
emitted only in the KubewardenWapc execution mode. -/
def fixedRows (metadata : Metadata) (protocol_version : String) : List Row :=
  [Row.pair "mutating:" (toString metadata.mutating),
   Row.pair "context aware:" (toString metadata.context_aware),
   Row.pair "execution mode:" (execModeStr metadata.execution_mode)] ++
  (if metadata.execution_mode = PolicyExecutionMode.KubewardenWapc then
     [Row.pair "protocol version:" protocol_version]
   else [])

/-- Embedding of `MetadataPrettyPrinter::print_metadata_generic_info`
(inspect.rs, lines 94-138). The source first unwraps protocol_version
with ok_or_else, failing when it is absent, before any row is built;
then it emits the Details header, the well-known annotation rows, the
fixed rows, and, when annotations remain after removing the usage key,
a blank row, the Annotations header and the remaining pairs. The rows
of the printed table are returned, an error mirrors the early return. -/
def print_metadata_generic_info (metadata : Metadata) : Except String (List Row) :=
  match metadata.protocol_version with
  | none => Except.error "Invalid policy: protocol_version not defined"
  | some protocol_version =>
      Except.ok ((Row.sectionHeader "Details" ::
        (knownAnnotationRows (metadata.annotations.getD []) ++
          fixedRows metadata protocol_version)) ++
        (if (remainingAnnotations (metadata.annotations.getD [])).isEmpty then []
         else Row.blank :: Row.sectionHeader "Annotations" ::
           annotationSectionRows (metadata.annotations.getD [])))

/-- Embedding of `MetadataYamlPrinter::print` (inspect.rs, lines 77-83):
the external YAML serializer is a parameter; its failure propagates via
the question-mark operator, its output is printed. -/
def metadataYamlPrint (ser : Metadata → Except String String)
    (metadata : Metadata) : Except String (List String) :=
  match ser metadata with
  | Except.error e => Except.error e
  | Except.ok metadata_yaml => Except.ok [metadata_yaml]

/-- Embedding of `SignaturesYamlPrinter::print` (inspect.rs,
lines 248-255): the source returns unit, not a Result; a failed
serialization is silently discarded by the if-let and nothing is
printed. The returned list is the printed lines. -/
def signaturesYamlPrint (ser : OciImageManifest → Except String String)
    (signatures : OciImageManifest) : List String :=
  match ser signatures with
  | Except.ok signatures_yaml => [signatures_yaml]
  | Except.error _ => []

/-- Kinds of I/O errors the markdown renderer can report; BrokenPipe is
the one singled out by the source. -/
inductive IOErrorKind where
  | BrokenPipe : IOErrorKind
  | OtherKind : IOErrorKind
deriving DecidableEq

/-- An I/O error of the markdown collaborator: its kind and its debug
rendering used in the propagated message. -/
structure IOError where
  kind : IOErrorKind
  msg : String
deriving DecidableEq

/-- Embedding of `MetadataPrettyPrinter::render_markdown` (inspect.rs,
lines 176-200). The terminal detection, the parse and the environment
construction are external; the environment setup (which uses the
current directory and can fail, propagated by question marks) and the
outcome of `mdcat::push_tty` are passed as their observable results.
A BrokenPipe error from the push is converted to success by or_else;
any other push error is wrapped and propagated. -/
def render_markdown (envSetup : Except String Unit)
    (push_tty : Except IOError Unit) : Except String Unit :=
  match envSetup with
  | Except.error e => Except.error e
  | Except.ok _ =>
      match push_tty with
      | Except.ok _ => Except.ok ()
      | Except.error err =>
          if err.kind = IOErrorKind.BrokenPipe then Except.ok ()
          else Except.error ("Cannot render markdown to stdout: " ++ err.msg)

/-- A concrete empty image manifest, used to instantiate theorems. -/
def sampleImg : OciImageManifest := OciImageManifest.mk []

/-- A concrete registry behaviour whose digest lookup and manifest fetch
both succeed with an image manifest, used to instantiate theorems. -/
def regExample : Registry :=
  Registry.mk (fun _ => Except.ok "x:y") (fun _ => Except.ok (OciManifest.Image sampleImg))

/-- A concrete metadata in the waPC execution mode with a protocol
version and no annotations, used to instantiate theorems. -/
def wapcMetadata : Metadata :=
  Metadata.mk (some "v1") none false false PolicyExecutionMode.KubewardenWapc []

/-- A concrete metadata in the Opa execution mode without a protocol
version, used to instantiate theorems. -/
def opaNoVersionMetadata : Metadata :=
  Metadata.mk none none false false PolicyExecutionMode.Opa []

end Kwctl

namespace Kwctl

theorem lookupKey_mem {α : Type} {k : String} {v : α} {m : List (String × α)}
    (h : (k, v) ∈ m) : ∃ w, lookupKey k m = some w := by
  induction m with
  | nil => cases h
  | cons kv rest ih =>
      obtain ⟨k2, v2⟩ := kv
      by_cases hk : k2 = k
      · exact ⟨v2, by simp [lookupKey, hk]⟩
      · rcases List.mem_cons.mp h with heq | hmem
        · cases heq; exact absurd rfl hk
        · rcases ih hmem with ⟨w, hw⟩
          exact ⟨w, by simp [lookupKey, hk, hw]⟩

theorem removeKey_cons {α : Type} (k0 k2 : String) (v2 : α) (rest : List (String × α)) :
    removeKey k0 ((k2, v2) :: rest) =
      if k2 = k0 then removeKey k0 rest else (k2, v2) :: removeKey k0 rest := by
  by_cases h : k2 = k0 <;> simp [removeKey, List.filter_cons, h]

theorem lookupKey_removeKey_ne {α : Type} {k k0 : String} (m : List (String × α))
    (h : k ≠ k0) : lookupKey k (removeKey k0 m) = lookupKey k m := by
  induction m with
  | nil => rfl
  | cons kv rest ih =>
      obtain ⟨k2, v2⟩ := kv
      rw [removeKey_cons]
      by_cases hk0 : k2 = k0
      · rw [if_pos hk0, ih]
        have hk : k2 ≠ k := by rintro rfl; exact h hk0
        simp [lookupKey, hk]
      · rw [if_neg hk0]
        by_cases hk : k2 = k
        · simp [lookupKey, hk]
        · simp [lookupKey, hk, ih]

/-- Claim C10: when no output-format value is supplied, the conversion
succeeds with the human-readable Pretty strategy; the yaml literal
selects Yaml; and the conversion fails exactly on a supplied value other
than yaml. -/
theorem output_type_try_from_spec (value : Option String) :
    (value = none → OutputType.try_from value = Except.ok OutputType.Pretty) ∧
    OutputType.try_from (some "yaml") = Except.ok OutputType.Yaml ∧
    ((∃ e, OutputType.try_from value = Except.error e) ↔ ∃ s, value = some s ∧ s ≠ "yaml") := by
  refine ⟨?_, rfl, ?_, ?_⟩
  · rintro rfl; rfl
  · rintro ⟨e, he⟩
    cases value with
    | none => simp [OutputType.try_from] at he
    | some s =>
        refine ⟨s, rfl, fun hs => ?_⟩
        rw [hs] at he
        simp [OutputType.try_from] at he
  · rintro ⟨s, rfl, hs⟩
    exact ⟨"Invalid output format " ++ s, by simp [OutputType.try_from, hs]⟩

/-- Witness for C10 at concrete inputs: absence yields Pretty, and the
unrecognized value json is rejected. -/
theorem output_type_try_from_spec_witness :
    OutputType.try_from none = Except.ok OutputType.Pretty ∧
    (∃ e, OutputType.try_from (some "json") = Except.error e) :=
  ⟨(output_type_try_from_spec none).1 rfl,
   (output_type_try_from_spec (some "json")).2.2.mpr ⟨"json", rfl, by decide⟩⟩

/-- Claim C9: during markdown rendering, once the environment setup
succeeded, a BrokenPipe failure of the markdown collaborator is
converted to success, while any other push failure propagates wrapped
in the stdout rendering error. -/
theorem render_markdown_broken_pipe_policy (envSetup : Except String Unit)
    (push_tty : Except IOError Unit) (henv : envSetup = Except.ok ()) :
    (push_tty = Except.ok () → render_markdown envSetup push_tty = Except.ok ()) ∧
    (∀ err, push_tty = Except.error err → err.kind = IOErrorKind.BrokenPipe →
      render_markdown envSetup push_tty = Except.ok ()) ∧
    (∀ err, push_tty = Except.error err → err.kind ≠ IOErrorKind.BrokenPipe →
      render_markdown envSetup push_tty =
        Except.error ("Cannot render markdown to stdout: " ++ err.msg)) := by
  subst henv
  refine ⟨?_, ?_, ?_⟩
  · rintro rfl; rfl
  · rintro err rfl hk; simp [render_markdown, hk]
  · rintro err rfl hk; simp [render_markdown, hk]

/-- Witness for C9 at concrete inputs: a BrokenPipe push error renders
successfully, another error kind propagates. -/
theorem render_markdown_broken_pipe_policy_witness :
    render_markdown (Except.ok ()) (Except.error (IOError.mk IOErrorKind.BrokenPipe "pipe")) =
      Except.ok () ∧
    render_markdown (Except.ok ()) (Except.error (IOError.mk IOErrorKind.OtherKind "disk")) =
      Except.error ("Cannot render markdown to stdout: " ++ "disk") :=
  ⟨(render_markdown_broken_pipe_policy (Except.ok ())
      (Except.error (IOError.mk IOErrorKind.BrokenPipe "pipe")) rfl).2.1 _ rfl rfl,
   (render_markdown_broken_pipe_policy (Except.ok ())
      (Except.error (IOError.mk IOErrorKind.OtherKind "disk")) rfl).2.2 _ rfl (by decide)⟩

/-- Counterexample to claim C5: the signatures YAML printer does not
propagate a serialization failure; with a failing serializer it returns
normally, printing nothing, so the failure never reaches the caller. -/
theorem signatures_yaml_swallows_serialization_failure :
    signaturesYamlPrint (fun _ => Except.error "yaml serialization failed") sampleImg = [] := rfl

/-- Claim C5 as amended: a structured-serialization failure propagates
as an error in the metadata renderer, but the signatures renderer
silently ignores it (printing nothing); on success each prints the
serialized document. -/
theorem yaml_printers_error_policy (serM : Metadata → Except String String)
    (serS : OciImageManifest → Except String String)
    (metadata : Metadata) (signatures : OciImageManifest) :
    (∀ e, serM metadata = Except.error e → metadataYamlPrint serM metadata = Except.error e) ∧
    (∀ y, serM metadata = Except.ok y → metadataYamlPrint serM metadata = Except.ok [y]) ∧
    (∀ e, serS signatures = Except.error e → signaturesYamlPrint serS signatures = []) ∧
    (∀ y, serS signatures = Except.ok y → signaturesYamlPrint serS signatures = [y]) := by
  refine ⟨?_, ?_, ?_, ?_⟩
  · intro e he; simp [metadataYamlPrint, he]
  · intro y hy; simp [metadataYamlPrint, hy]
  · intro e he; simp [signaturesYamlPrint, he]
  · intro y hy; simp [signaturesYamlPrint, hy]

/-- Witness for the amended C5 at concrete inputs: a failing metadata
serialization propagates, a failing signatures serialization is
swallowed into empty output. -/
theorem yaml_printers_error_policy_witness :
    metadataYamlPrint (fun _ => Except.error "broken") wapcMetadata = Except.error "broken" ∧
    signaturesYamlPrint (fun _ => Except.error "broken") (OciImageManifest.mk []) = [] :=
  ⟨(yaml_printers_error_policy (fun _ => Except.error "broken")
      (fun _ => Except.error "broken") wapcMetadata (OciImageManifest.mk [])).1 _ rfl,
   (yaml_printers_error_policy (fun _ => Except.error "broken")
      (fun _ => Except.error "broken") wapcMetadata (OciImageManifest.mk [])).2.2.1 _ rfl⟩

/-- Claim C2: normalization of the request payload. An object whose
kind string field equals AdmissionReview yields its request field, or
the invalid-admission-review-object error when that field is missing;
an object without that kind is returned unchanged; a non-object fails
with the invalid-request error (message: request to evaluate is
invalid). -/
theorem normalize_spec (raw : Json) :
    (∀ fields, raw = Json.obj fields →
      ((lookupKey "kind" fields).bind Json.asStr = some "AdmissionReview" →
        (∀ v, lookupKey "request" fields = some v → normalize raw = Except.ok v) ∧
        (lookupKey "request" fields = none →
          normalize raw = Except.error NormalizeError.invalidAdmissionReviewObject)) ∧
      ((lookupKey "kind" fields).bind Json.asStr ≠ some "AdmissionReview" →
        normalize raw = Except.ok raw)) ∧
    (raw.isObj = false → normalize raw = Except.error NormalizeError.invalidRequest) := by
  constructor
  · rintro fields rfl
    constructor
    · intro hk
      constructor
      · intro v hv; simp [normalize, hk, hv]
      · intro hv; simp [normalize, hk, hv]
    · intro hk; simp [normalize, hk]
  · intro h
    cases raw <;> simp [Json.isObj] at h <;> rfl

/-- Witness for C2 at the spec's concrete inputs: an AdmissionReview
envelope yields its request field, an envelope without request fails,
and a JSON array fails with the invalid-request error. -/
theorem normalize_spec_witness :
    normalize (Json.obj [("kind", Json.str "AdmissionReview"),
        ("request", Json.obj [("a", Json.num 1)])]) =
      Except.ok (Json.obj [("a", Json.num 1)]) ∧
    normalize (Json.obj [("kind", Json.str "AdmissionReview")]) =
      Except.error NormalizeError.invalidAdmissionReviewObject ∧
    normalize (Json.arr []) = Except.error NormalizeError.invalidRequest := by
  refine ⟨?_, ?_, ?_⟩
  · exact (((normalize_spec _).1 _ rfl).1 (by decide)).1 _ rfl
  · exact (((normalize_spec _).1 _ rfl).1 (by decide)).2 rfl
  · exact (normalize_spec (Json.arr [])).2 rfl

/-- Counterexample to claim C6: normalization succeeds on an
AdmissionReview envelope whose request field is the number 42, and the
normalized result handed to evaluation is that number, not a JSON
object. -/
theorem normalize_nonobject_request_field :
    normalize (Json.obj [("kind", Json.str "AdmissionReview"), ("request", Json.num 42)]) =
      Except.ok (Json.num 42) ∧
    (Json.num 42).isObj = false := ⟨rfl, rfl⟩

/-- Claim C6 as amended: whenever normalization succeeds the input was
a JSON object; when it is not an AdmissionReview envelope the result is
that object itself, and when it is, the result is exactly the value of
its request field, whatever its JSON shape. -/
theorem normalize_success_shape (raw result : Json)
    (h : normalize raw = Except.ok result) :
    ∃ fields, raw = Json.obj fields ∧
      ((lookupKey "kind" fields).bind Json.asStr = some "AdmissionReview" →
        lookupKey "request" fields = some result) ∧
      ((lookupKey "kind" fields).bind Json.asStr ≠ some "AdmissionReview" →
        result = Json.obj fields) := by
  cases raw with
  | obj fields =>
      refine ⟨fields, rfl, ?_, ?_⟩
      · intro hk
        rw [normalize] at h
        rw [if_pos hk] at h
        cases hv : lookupKey "request" fields with
        | some r => rw [hv] at h; cases h; rfl
        | none => rw [hv] at h; cases h
      · intro hk
        rw [normalize, if_neg hk] at h
        cases h; rfl
  | null => cases h
  | bool b => cases h
  | num n => cases h
  | str s => cases h
  | arr xs => cases h

/-- Witness for the amended C6 at a concrete input: a plain object
normalizes to itself. -/
theorem normalize_success_shape_witness :
    ∃ fields, Json.obj [("a", Json.num 1)] = Json.obj fields ∧
      ((lookupKey "kind" fields).bind Json.asStr = some "AdmissionReview" →
        lookupKey "request" fields = some (Json.obj [("a", Json.num 1)])) ∧
      ((lookupKey "kind" fields).bind Json.asStr ≠ some "AdmissionReview" →
        Json.obj [("a", Json.num 1)] = Json.obj fields) :=
  normalize_success_shape (Json.obj [("a", Json.num 1)]) (Json.obj [("a", Json.num 1)]) rfl

/-- Claim C4, evaluation of the code at the failing input: for a policy
in the Opa execution mode — a mode that does not require a protocol
version, and for which the renderer never emits a protocol-version
row — rendering metadata without a protocol_version nevertheless fails
with the protocol-version validation error, because the source unwraps
protocol_version before inspecting the execution mode. -/
theorem protocol_version_error_on_opa_mode :
    opaNoVersionMetadata.execution_mode ≠ PolicyExecutionMode.KubewardenWapc ∧
    print_metadata_generic_info opaNoVersionMetadata =
      Except.error "Invalid policy: protocol_version not defined" := ⟨by decide, rfl⟩

theorem rfindColon_eq_none (l : List Char) (h : ':' ∉ l) : rfindColon l = none := by
  induction l with
  | nil => rfl
  | cons c rest ih =>
      have hc : c ≠ ':' := fun hc => h (hc ▸ List.mem_cons_self c rest)
      have hr : ':' ∉ rest := fun hm => h (List.mem_cons_of_mem c hm)
      have hcc : ¬(c = ':') := hc
      simp [rfindColon, ih hr, hcc]

theorem rfindColon_append (pre post : List Char) (h : ':' ∉ post) :
    rfindColon (pre ++ ':' :: post) = some pre.length := by
  induction pre with
  | nil => simp [rfindColon, rfindColon_eq_none post h]
  | cons c pre ih => simp [rfindColon, ih]

theorem take_append_length (pre post : List Char) (c : Char) :
    (pre ++ c :: post).take (pre.length + 1) = pre ++ [c] := by
  induction pre with
  | nil => simp
  | cons x pre ih => simp [List.take, ih]

/-- Claim C1: the signature-reference derivation. When the reference
contains no colon the derivation is absent for any digest; when it does,
writing the reference as everything up to and including its last colon
followed by a colon-free remainder, the result replaces that remainder
with the signature tag: the digest with every colon replaced by a dash,
suffixed by .sig. -/
theorem get_signature_url_core_spec (uri digest : List Char) :
    (':' ∉ uri → get_signature_url_core uri digest = none) ∧
    (∀ pre post, uri = pre ++ ':' :: post → ':' ∉ post →
      get_signature_url_core uri digest =
        some (pre ++ ':' :: (replaceColons digest ++ ".sig".toList))) := by
  constructor
  · intro h
    simp [get_signature_url_core, rfindColon_eq_none uri h]
  · rintro pre post rfl hpost
    simp [get_signature_url_core, rfindColon_append pre post hpost, take_append_length]

/-- Witness for C1 at concrete inputs, including the no-colon case. -/
theorem get_signature_url_core_spec_witness :
    get_signature_url_core ("a:b".toList) ("x:y".toList) = some ("a:x-y.sig".toList) ∧
    get_signature_url_core ("not_valid".toList) ("x:y".toList) = none :=
  ⟨((get_signature_url_core_spec ("a:b".toList) ("x:y".toList)).2
      ("a".toList) ("b".toList) (by decide) (by decide)).trans (by decide),
   (get_signature_url_core_spec ("not_valid".toList) ("x:y".toList)).1 (by decide)⟩

theorem except_toOption_eq_some {ε α : Type} (x : Except ε α) (a : α) :
    x.toOption = some a ↔ x = Except.ok a := by
  cases x <;> simp [Except.toOption]

/-- Claim C3: the best-effort signature resolution. Its return type is
an option, so no registry failure ever reaches the caller as an error;
it produces a manifest exactly when the digest lookup succeeds, the
signature-reference derivation succeeds, the fetch at the derived
reference succeeds, and the fetched manifest is image-typed — every
other combination of collaborator behaviours collapses to absent. -/
theorem fetch_signatures_manifest_spec (registry : Registry) (uri : String)
    (img : OciImageManifest) :
    fetch_signatures_manifest registry uri = some img ↔
      ∃ digest signature_url,
        registry.manifest_digest uri = Except.ok digest ∧
        get_signature_url uri digest = some signature_url ∧
        registry.manifest signature_url = Except.ok (OciManifest.Image img) := by
  simp only [fetch_signatures_manifest, Option.bind_eq_some, except_toOption_eq_some]
  constructor
  · rintro ⟨digest, hd, url, hu, m, hm, hmimg⟩
    cases m with
    | Image i => cases hmimg; exact ⟨digest, url, hd, hu, hm⟩
    | ImageIndex => cases hmimg
  · rintro ⟨digest, url, hd, hu, hm⟩
    exact ⟨digest, hd, url, hu, OciManifest.Image img, hm, rfl⟩

/-- Witness for C3 at a concrete registry whose digest lookup and fetch
both succeed with an image manifest. -/
theorem fetch_signatures_manifest_spec_witness :
    fetch_signatures_manifest regExample "a:b" = some sampleImg :=
  (fetch_signatures_manifest_spec regExample "a:b" sampleImg).mpr
    ⟨"x:y", "a:x-y.sig", rfl, by decide, rfl⟩

theorem mem_removeKey {α : Type} {kv : String × α} {k0 : String} {m : List (String × α)} :
    kv ∈ removeKey k0 m ↔ kv ∈ m ∧ kv.1 ≠ k0 := by
  simp [removeKey, List.mem_filter]

theorem consumeKnown_rest_subset (ks : List String) :
    ∀ (m : List (String × String)) (kv : String × String),
      kv ∈ (consumeKnown ks m).2 → kv ∈ m := by
  induction ks with
  | nil => intro m kv h; exact h
  | cons k0 ks ih =>
      intro m kv h
      cases hl : lookupKey k0 m with
      | some v =>
          simp only [consumeKnown, hl] at h
          exact (mem_removeKey.mp (ih (removeKey k0 m) kv h)).1
      | none =>
          simp only [consumeKnown, hl] at h
          exact ih m kv h

theorem consumeKnown_not_mem_rest (ks : List String) :
    ∀ (m : List (String × String)) (k : String), k ∈ ks →
      ∀ v, (k, v) ∉ (consumeKnown ks m).2 := by
  induction ks with
  | nil => intro m k hk; cases hk
  | cons k0 ks ih =>
      intro m k hk v hv
      cases hl : lookupKey k0 m with
      | some w =>
          simp only [consumeKnown, hl] at hv
          rcases List.mem_cons.mp hk with rfl | hk2
          · exact (mem_removeKey.mp
              (consumeKnown_rest_subset ks (removeKey k m) (k, v) hv)).2 rfl
          · exact ih (removeKey k0 m) k hk2 v hv
      | none =>
          simp only [consumeKnown, hl] at hv
          rcases List.mem_cons.mp hk with rfl | hk2
          · rcases lookupKey_mem (consumeKnown_rest_subset ks m (k, v) hv) with ⟨w, hw⟩
            rw [hl] at hw; cases hw
          · exact ih m k hk2 v hv

theorem consumeKnown_mem_rest_of_not_mem (ks : List String) :
    ∀ (m : List (String × String)) (k v : String), (k, v) ∈ m → k ∉ ks →
      (k, v) ∈ (consumeKnown ks m).2 := by
  induction ks with
  | nil => intro m k v hm _; exact hm
  | cons k0 ks ih =>
      intro m k v hm hk
      have hk0 : k ≠ k0 := fun h => hk (by rw [h]; exact List.mem_cons_self _ _)
      have hks : k ∉ ks := fun h => hk (List.mem_cons_of_mem _ h)
      cases hl : lookupKey k0 m with
      | some w =>
          simp only [consumeKnown, hl]
          exact ih (removeKey k0 m) k v (mem_removeKey.mpr ⟨hm, hk0⟩) hks
      | none =>
          simp only [consumeKnown, hl]
          exact ih m k v hm hks

theorem consumeKnown_rows_keys (ks : List String) :
    ∀ (m : List (String × String)) (r : Row), r ∈ (consumeKnown ks m).1 →
      ∃ k v, k ∈ ks ∧ r = Row.pair (annotation_to_row_key k) v := by
  induction ks with
  | nil => intro m r h; cases h
  | cons k0 ks ih =>
      intro m r h
      cases hl : lookupKey k0 m with
      | some v =>
          simp only [consumeKnown, hl] at h
          rcases List.mem_cons.mp h with rfl | h2
          · exact ⟨k0, v, List.mem_cons_self _ _, rfl⟩
          · rcases ih (removeKey k0 m) r h2 with ⟨k, w, hk, hr⟩
            exact ⟨k, w, List.mem_cons_of_mem _ hk, hr⟩
      | none =>
          simp only [consumeKnown, hl] at h
          rcases ih m r h with ⟨k, w, hk, hr⟩
          exact ⟨k, w, List.mem_cons_of_mem _ hk, hr⟩

theorem consumeKnown_rows_eq (ks : List String) :
    ∀ (m : List (String × String)), ks.Nodup →
      (consumeKnown ks m).1 =
        ks.filterMap (fun k =>
          (lookupKey k m).map (fun v => Row.pair (annotation_to_row_key k) v)) := by
  induction ks with
  | nil => intro m _; rfl
  | cons k0 ks ih =>
      intro m hnd
      rw [List.nodup_cons] at hnd
      obtain ⟨hk0, hnd⟩ := hnd
      cases hl : lookupKey k0 m with
      | some v =>
          simp only [consumeKnown, hl, List.filterMap_cons, Option.map_some]
          rw [ih (removeKey k0 m) hnd]
          congr 1
          apply List.filterMap_congr
          intro k hkmem
          have hne : k ≠ k0 := by rintro rfl; exact hk0 hkmem
          rw [lookupKey_removeKey_ne m hne]
      | none =>
          simp only [consumeKnown, hl, List.filterMap_cons, Option.map_none]
          exact ih m hnd

theorem mem_annotationSectionRows (anns : List (String × String)) (k v : String) :
    Row.pair k v ∈ annotationSectionRows anns ↔ (k, v) ∈ remainingAnnotations anns := by
  simp only [annotationSectionRows, List.mem_map, Prod.exists, Row.pair.injEq]
  constructor
  · rintro ⟨a, b, hmem, rfl, rfl⟩; exact hmem
  · intro hmem; exact ⟨k, v, hmem, rfl, rfl⟩

/-- Claim C8: the annotation consumption of the human-readable
rendering. The Details rows for annotations are exactly the well-known
keys present in the mapping, in the fixed allow-list order, displayed
under their namespace-stripped key; a well-known key never reappears in
the Annotations section; the reserved usage key is displayed in neither
section; and every other key present in the mapping appears in the
Annotations section and (its displayed form not aliasing a stripped
well-known key) never in the Details rows. -/
theorem annotation_sections_spec (anns : List (String × String)) :
    knownAnnotationRows anns =
      pretty_annotations.filterMap (fun k =>
        (lookupKey k anns).map (fun v => Row.pair (annotation_to_row_key k) v)) ∧
    (∀ k, k ∈ pretty_annotations → ∀ v, Row.pair k v ∉ annotationSectionRows anns) ∧
    (∀ v, Row.pair KUBEWARDEN_ANNOTATION_POLICY_USAGE v ∉ knownAnnotationRows anns ∧
      Row.pair KUBEWARDEN_ANNOTATION_POLICY_USAGE v ∉ annotationSectionRows anns) ∧
    (∀ k v, (k, v) ∈ anns → k ∉ pretty_annotations →
      k ≠ KUBEWARDEN_ANNOTATION_POLICY_USAGE →
      Row.pair k v ∈ annotationSectionRows anns ∧
      (k ∉ pretty_annotations.map annotation_to_row_key →
        ∀ w, Row.pair k w ∉ knownAnnotationRows anns)) := by
  refine ⟨?_, ?_, ?_, ?_⟩
  · exact consumeKnown_rows_eq pretty_annotations anns (by decide)
  · intro k hk v hmem
    rw [mem_annotationSectionRows] at hmem
    exact consumeKnown_not_mem_rest pretty_annotations anns k hk v
      (mem_removeKey.mp hmem).1
  · intro v
    constructor
    · intro h
      rcases consumeKnown_rows_keys pretty_annotations anns _ h with ⟨k, w, hk, heq⟩
      injection heq with h1 _
      exact (by decide :
        ∀ k2 ∈ pretty_annotations,
          annotation_to_row_key k2 ≠ KUBEWARDEN_ANNOTATION_POLICY_USAGE) k hk h1.symm
    · intro h
      rw [mem_annotationSectionRows] at h
      exact (mem_removeKey.mp h).2 rfl
  · intro k v hmem hkp hku
    constructor
    · rw [mem_annotationSectionRows]
      exact mem_removeKey.mpr
        ⟨consumeKnown_mem_rest_of_not_mem pretty_annotations anns k v hmem hkp, hku⟩
    · intro hknot w hmem2
      rcases consumeKnown_rows_keys pretty_annotations anns _ hmem2 with ⟨k2, w2, hk2, heq⟩
      injection heq with h1 _
      exact hknot (h1 ▸ List.mem_map_of_mem _ hk2)

/-- Witness for C8 at a concrete mapping holding a well-known key, the
usage key and an unknown key: the title row is emitted in Details under
its stripped key, the unknown key lands in the Annotations section, the
title and usage keys do not. -/
theorem annotation_sections_spec_witness :
    knownAnnotationRows
        [(KUBEWARDEN_ANNOTATION_POLICY_TITLE, "T"),
         (KUBEWARDEN_ANNOTATION_POLICY_USAGE, "U"), ("custom", "C")] =
      [Row.pair "title:" "T"] ∧
    Row.pair "custom" "C" ∈ annotationSectionRows
        [(KUBEWARDEN_ANNOTATION_POLICY_TITLE, "T"),
         (KUBEWARDEN_ANNOTATION_POLICY_USAGE, "U"), ("custom", "C")] ∧
    (∀ v, Row.pair KUBEWARDEN_ANNOTATION_POLICY_TITLE v ∉ annotationSectionRows
        [(KUBEWARDEN_ANNOTATION_POLICY_TITLE, "T"),
         (KUBEWARDEN_ANNOTATION_POLICY_USAGE, "U"), ("custom", "C")]) ∧
    (∀ v, Row.pair KUBEWARDEN_ANNOTATION_POLICY_USAGE v ∉ annotationSectionRows
        [(KUBEWARDEN_ANNOTATION_POLICY_TITLE, "T"),
         (KUBEWARDEN_ANNOTATION_POLICY_USAGE, "U"), ("custom", "C")]) := by
  have h := annotation_sections_spec
    [(KUBEWARDEN_ANNOTATION_POLICY_TITLE, "T"),
     (KUBEWARDEN_ANNOTATION_POLICY_USAGE, "U"), ("custom", "C")]
  refine ⟨h.1.trans (by decide), (h.2.2.2 "custom" "C" (by decide) (by decide) (by decide)).1,
    h.2.1 KUBEWARDEN_ANNOTATION_POLICY_TITLE (by decide), fun v => (h.2.2.1 v).2⟩

/-- Claim C7: in the successfully rendered human-readable metadata
table, a protocol-version row appears exactly when the execution mode is
KubewardenWapc, the mode that requires a protocol version; in any other
mode no such row appears even though a protocol_version value is present
(a successful rendering always has one). The side condition keeps the
annotation mapping from containing a key that literally aliases the
protocol-version row label. -/
theorem protocol_version_row_iff_wapc (metadata : Metadata) (rows : List Row)
    (hp : print_metadata_generic_info metadata = Except.ok rows)
    (hclash : ∀ v, ("protocol version:", v) ∉ metadata.annotations.getD []) :
    (∃ v, Row.pair "protocol version:" v ∈ rows) ↔
      metadata.execution_mode = PolicyExecutionMode.KubewardenWapc := by
  cases hpv : metadata.protocol_version with
  | none => rw [print_metadata_generic_info, hpv] at hp; cases hp
  | some pv =>
      rw [print_metadata_generic_info, hpv] at hp
      injection hp with hrows
      subst hrows
      constructor
      · rintro ⟨v, hv⟩
        by_cases hm : metadata.execution_mode = PolicyExecutionMode.KubewardenWapc
        · exact hm
        · exfalso
          rw [fixedRows, if_neg hm, List.append_nil] at hv
          rcases List.mem_append.mp hv with hv | hv
          · rcases List.mem_cons.mp hv with h | hv
            · cases h
            rcases List.mem_append.mp hv with hv | hv
            · rcases consumeKnown_rows_keys pretty_annotations
                (metadata.annotations.getD []) _ hv with ⟨k, w, hk, heq⟩
              injection heq with h1 _
              exact (by decide : ∀ k2 ∈ pretty_annotations,
                annotation_to_row_key k2 ≠ "protocol version:") k hk h1.symm
            · rcases List.mem_cons.mp hv with h | hv
              · injection h with h1 _; exact absurd h1 (by decide)
              rcases List.mem_cons.mp hv with h | hv
              · injection h with h1 _; exact absurd h1 (by decide)
              rcases List.mem_cons.mp hv with h | hv
              · injection h with h1 _; exact absurd h1 (by decide)
              · cases hv
          · by_cases hrest : (remainingAnnotations (metadata.annotations.getD [])).isEmpty
            · rw [if_pos hrest] at hv; cases hv
            · rw [if_neg hrest] at hv
              rcases List.mem_cons.mp hv with h | hv
              · cases h
              rcases List.mem_cons.mp hv with h | hv
              · cases h
              rw [mem_annotationSectionRows] at hv
              exact hclash v (consumeKnown_rest_subset pretty_annotations
                (metadata.annotations.getD []) _ (mem_removeKey.mp hv).1)
      · intro hm
        refine ⟨pv, List.mem_append_left _ (List.mem_cons_of_mem _
          (List.mem_append_right _ ?_))⟩
        rw [fixedRows, if_pos hm]
        exact List.mem_append_right _ (List.mem_singleton.mpr rfl)

/-- Witness for C7 at a concrete metadata in the KubewardenWapc mode:
the rendered rows contain the protocol-version row. -/
theorem protocol_version_row_iff_wapc_witness :
    ∃ v, Row.pair "protocol version:" v ∈
      [Row.sectionHeader "Details", Row.pair "mutating:" "false",
       Row.pair "context aware:" "false",
       Row.pair "execution mode:" "kubewarden-wapc",
       Row.pair "protocol version:" "v1"] :=
  (protocol_version_row_iff_wapc wapcMetadata
      [Row.sectionHeader "Details", Row.pair "mutating:" "false",
       Row.pair "context aware:" "false",
       Row.pair "execution mode:" "kubewarden-wapc",
       Row.pair "protocol version:" "v1"]
      rfl (fun _ h => List.not_mem_nil _ h)).mpr rfl

end Kwctl
